import Mathlib

/-!
Verification of the cross-validation base model of the Space Titanic
repository (`src/models/base_model.py`).

The Python code is embedded shallowly:

* A pandas training row is a record with its feature payload, its boolean
  `Transported` label and its integer `kfold` column.  The `preds` column
  added by `train` is a parallel `List (Option ℚ)` (`pd.NA` becomes `none`).
* A classifier (the duck-typed `fit` / `predict` / `predict_proba`
  collaborator supplied by `init_classifier`) is a function-valued record;
  `predict_proba(...)[:, 1]` is modelled directly as the positive-class
  probability function `predict_proba : Feat → ℚ`.
* Floating point arithmetic is idealised as exact rational arithmetic.
* The optuna optimizer is modelled as an external black box: a deterministic
  trial loop driven by a sampler stream, with the sampler seeded exactly as in
  the code (`TPESampler(seed=42)`), an explicit verbosity state for
  `optuna.logging`, and `Except` for Python exceptions.
-/

namespace SpaceTitanic

/-- A row of the training table: feature columns, the `Transported` label
column and the `kfold` fold-index column. -/
structure TrainRow (Feat : Type) where
  features : Feat
  transported : Bool
  kfold : Int

/-- A row of the test table: the `PassengerId` column plus feature columns. -/
structure TestRow (Feat : Type) where
  passengerId : Nat
  features : Feat

/-- The working training table inside `train`: the (immutable) rows plus the
mutable `preds` column, aligned by position. -/
structure WorkDF (Feat : Type) where
  rows : List (TrainRow Feat)
  preds : List (Option ℚ)

/-- A fitted classifier: `predict` returns the predicted label, and
`predict_proba` is the second column of the Python `predict_proba`
(positive-class probability). -/
structure FittedClf (Feat : Type) where
  predict : Feat → Bool
  predict_proba : Feat → ℚ

/-- An unfitted classifier, as returned by `init_classifier`: `fit` consumes
the training features, the labels and the extra fit parameters. -/
structure Clf (Feat FitP : Type) where
  fit : List Feat → List Bool → FitP → FittedClf Feat

/-- The subclass-supplied hooks used by the training loop:
`init_classifier(params)` and `extra_fit_parameters(X_train, y_train, X_val,
y_val, params)` (whose base-class default returns an empty dict). -/
structure ModelHooks (Feat P FitP : Type) where
  init_classifier : P → Clf Feat FitP
  extra_fit_parameters : List Feat → List Bool → List Feat → List Bool → P → FitP

/-- `df[df["kfold"] != fold]` — the in-fold training partition. -/
def infoldRows (rows : List (TrainRow Feat)) (fold : Int) : List (TrainRow Feat) :=
  rows.filter (fun r => r.kfold ≠ fold)

/-- `df[df["kfold"] == fold]` — the held-out validation partition. -/
def heldoutRows (rows : List (TrainRow Feat)) (fold : Int) : List (TrainRow Feat) :=
  rows.filter (fun r => r.kfold = fold)

/-- `sklearn.metrics.accuracy_score`: the fraction of positions where the
two label vectors agree. -/
def accuracy_score (yTrue yPred : List Bool) : ℚ :=
  (((yTrue.zip yPred).countP (fun p => p.1 == p.2) : ℚ)) / ((yTrue.length : ℚ))

/-- The classifier built and fitted by `_train_fold` for a given fold:
`init_classifier(params)` is called afresh, `extra_fit_parameters` computes
the extra fit arguments, and `fit` trains on the in-fold partition. -/
def fittedClf (m : ModelHooks Feat P FitP) (rows : List (TrainRow Feat))
    (fold : Int) (params : P) : FittedClf Feat :=
  let tr := infoldRows rows fold
  let va := heldoutRows rows fold
  let xTrain := tr.map TrainRow.features
  let yTrain := tr.map TrainRow.transported
  let xVal := va.map TrainRow.features
  let yVal := va.map TrainRow.transported
  let fitP := m.extra_fit_parameters xTrain yTrain xVal yVal params
  (m.init_classifier params).fit xTrain yTrain fitP

/-- `BaseModel._train_fold`: splits the table by `kfold`, fits a fresh
classifier on the in-fold rows, scores held-out predictions with
`accuracy_score`, writes the held-out rows' positive-class probability into
the `preds` column (`df.loc[val.index, "preds"] = ...`), and returns the
positive-class probabilities for the test rows together with the fold
accuracy. -/
def trainFold (m : ModelHooks Feat P FitP) (df : WorkDF Feat) (testX : List Feat)
    (fold : Int) (params : P) : WorkDF Feat × (List ℚ × ℚ) :=
  let va := heldoutRows df.rows fold
  let clf := fittedClf m df.rows fold params
  let valPred := va.map (fun r => clf.predict r.features)
  let acc := accuracy_score (va.map TrainRow.transported) valPred
  let preds2 := List.zipWith
    (fun r p => if r.kfold = fold then some (clf.predict_proba r.features) else p)
    df.rows df.preds
  (⟨df.rows, preds2⟩, (testX.map clf.predict_proba, acc))

/-- The `for fold in range(5)` loop body of `train`, threading the working
table through the folds and collecting each fold's
`(test prediction vector, accuracy)` pair in order. -/
def trainLoop (m : ModelHooks Feat P FitP) (testX : List Feat) (params : P) :
    WorkDF Feat → List Int → WorkDF Feat × List (List ℚ × ℚ)
  | df, [] => (df, [])
  | df, f :: fs =>
    let step := trainFold m df testX f params
    let rest := trainLoop m testX params step.1 fs
    (rest.1, step.2 :: rest.2)

/-- `np.mean(np.vstack(test_preds), axis=0)`: the element-wise mean of a
stack of equal-length vectors. -/
def np_mean_axis0 (stack : List (List ℚ)) : List ℚ :=
  match stack with
  | [] => []
  | v :: _ =>
    (List.range v.length).map
      (fun j => ((stack.map (fun w => w.getD j 0)).sum) / ((stack.length : ℚ)))

/-- `BaseModel.train`: copies the training table, drops `PassengerId` from
the test table, initialises the `preds` column to `pd.NA`, runs the five fold
steps, and returns the out-of-fold prediction column, the element-wise mean
of the per-fold test predictions, and the mean accuracy. -/
def train (m : ModelHooks Feat P FitP) (df : List (TrainRow Feat))
    (test_df : List (TestRow Feat)) (params : P) :
    List (Option ℚ) × List ℚ × ℚ :=
  let wdf : WorkDF Feat := ⟨df, df.map (fun _ => none)⟩
  let testX := test_df.map TestRow.features
  let res := trainLoop m testX params wdf [0, 1, 2, 3, 4]
  let totalAcc := (res.2.map Prod.snd).foldl (fun a b => a + b) 0
  let acc := totalAcc / 5
  let testPreds := np_mean_axis0 (res.2.map Prod.fst)
  (res.1.preds, testPreds, acc)

/-! ### The model registry (`BaseModel.REGISTRY` and `__init_subclass__`)

`REGISTRY` is a Python dict from name to class; a class is modelled by an
opaque identifier, and a class definition by its (optional) `name` attribute
plus that identifier. -/

/-- A subclass definition event: the declared `name` attribute (the base
declares `name = None`) and an identifier standing for the class object. -/
structure ClassDecl where
  name : Option String
  clsId : Nat

/-- Python dict assignment `d[k] = v`: replace the binding of `k` if present,
otherwise append it. -/
def dictSet (r : List (String × Nat)) (k : String) (v : Nat) : List (String × Nat) :=
  match r with
  | [] => [(k, v)]
  | e :: rest => if e.1 = k then (k, v) :: rest else e :: dictSet rest k v

/-- Python dict lookup `d.get(k)`. -/
def dictGet (r : List (String × Nat)) (k : String) : Option Nat :=
  match r with
  | [] => none
  | e :: rest => if e.1 = k then some e.2 else dictGet rest k

/-- `BaseModel.__init_subclass__`: when the new class declares a non-null
`name`, write `REGISTRY[name] = cls`; otherwise leave the registry alone. -/
def init_subclass (r : List (String × Nat)) (c : ClassDecl) : List (String × Nat) :=
  match c.name with
  | none => r
  | some n => dictSet r n c.clsId

/-! ### Hyperparameter search (`BaseModel.hyperparameter_search`)

The optuna study is an external collaborator; it is modelled as a
deterministic trial loop: the sampler yields one abstract parameter draw per
trial (a `Nat` standing for the sampled parameter mapping), the objective is
a pure function of the draw and the two tables and may raise (`Except`), and
the best parameters are those of the maximal completed trial value (first
such trial on ties).  `optuna.logging` verbosity is an explicit state, and
the run additionally produces an event trace (verbosity writes and completed
trials) so that ordering claims can be stated. -/

/-- `optuna.logging.WARNING`. -/
def optunaWARNING : Int := 30

/-- `optuna.logging.INFO`, optuna's default verbosity. -/
def optunaINFO : Int := 20

/-- The `optuna.logging` verbosity state read by `get_verbosity` and written
by `set_verbosity`. -/
structure LogState where
  verbosity : Int

/-- The Python exceptions this code can surface: `NotImplementedError` from
the base-class hooks, and the `ValueError` optuna raises from `best_params`
when no trial completed. -/
inductive PyErr where
  | notImplemented (msg : String)
  | valueError (msg : String)

/-- Observable events of a search run: a `set_verbosity` call, or the
completion of one optimizer trial with its objective value. -/
inductive SearchEvent where
  | setVerbosity (v : Int)
  | trialComplete (idx : Nat) (value : ℚ)

/-- The deterministic pseudo-random stream a seeded sampler draws from
(a model of the external sampler's internal generator). -/
def tpeStream (seed i : Nat) : Nat :=
  (seed + 1) * 1000003 + i

/-- `optuna.samplers.TPESampler(seed=...)`: with a concrete seed the draw for
trial `i` comes from the seeded stream; with `seed=None` it comes from the
process entropy source. -/
def tpeSampler (seed : Option Nat) (entropy : Nat → Nat) (i : Nat) : Nat :=
  match seed with
  | some s => tpeStream s i
  | none => entropy i

/-- `study.optimize(objective, n_trials=...)`: run the given number of trials
in sequence, sampling a draw and evaluating the objective for each; an
exception from the objective aborts the loop and propagates.  Returns the
event trace of completed trials and either the list of
`(draw, value)` pairs or the propagated exception. -/
def runTrials (objective : Nat → Except PyErr ℚ) (sample : Nat → Nat) :
    Nat → Nat → List SearchEvent × Except PyErr (List (Nat × ℚ))
  | 0, _ => ([], Except.ok [])
  | k + 1, i =>
    let p := sample i
    match objective p with
    | Except.error e => ([], Except.error e)
    | Except.ok v =>
      let rest := runTrials objective sample k (i + 1)
      (SearchEvent.trialComplete i v :: rest.1,
        match rest.2 with
        | Except.error e => Except.error e
        | Except.ok l => Except.ok ((p, v) :: l))

/-- `study.best_params` under `direction="maximize"`: the draw of the first
trial attaining the maximal value; raises `ValueError` when no trial
completed. -/
def bestParams (trials : List (Nat × ℚ)) : Except PyErr Nat :=
  match trials with
  | [] => Except.error (PyErr.valueError ("Record does not exist."))
  | t :: ts =>
    Except.ok (ts.foldl (fun best c => if best.2 < c.2 then c else best) t).1

/-- The class-level state `hyperparameter_search` closes over: the stored
tables, the `preprocess_datasets` hook (identity in the base class) and the
`objective(trial, train_df, test_df)` hook, with the trial handle abstracted
to the sampler draw it supplies. -/
structure PyModel (D : Type) where
  train_df : D
  test_df : D
  preprocess_datasets : D → D → D × D
  objective : Nat → D → D → Except PyErr ℚ

/-- The base-class `preprocess_datasets`: returns the stored tables
unchanged. -/
def basePreprocess (D : Type) : D → D → D × D :=
  fun t e => (t, e)

/-- The base-class `objective`: unconditionally raises
`NotImplementedError`. -/
def baseObjective (D : Type) : Nat → D → D → Except PyErr ℚ :=
  fun _ _ _ =>
    Except.error (PyErr.notImplemented ("Base classes need to implement objective()."))

/-- `BaseModel.hyperparameter_search`: preprocess the stored tables, close
the objective over them (`functools.partial`), build a seed-42 sampler, save
the current verbosity, set it to `WARNING`, run the trials, restore the
verbosity (only on normal completion of `optimize`), and return the best
parameters.  Produces the event trace, the final verbosity state and the
result or the propagated exception. -/
def hyperparameter_search (m : PyModel D) (entropy : Nat → Nat) (n_trials : Nat)
    (s : LogState) : List SearchEvent × LogState × Except PyErr Nat :=
  let pre := m.preprocess_datasets m.train_df m.test_df
  let objective := fun p => m.objective p pre.1 pre.2
  let sample := tpeSampler (some 42) entropy
  let v := s.verbosity
  let run := runTrials objective sample n_trials 0
  match run.2 with
  | Except.error e =>
    (SearchEvent.setVerbosity optunaWARNING :: run.1, ⟨optunaWARNING⟩, Except.error e)
  | Except.ok trials =>
    (SearchEvent.setVerbosity optunaWARNING :: run.1 ++ [SearchEvent.setVerbosity v],
      ⟨v⟩, bestParams trials)

/-! ### Object-level view of `train` (aliasing of the caller's tables)

To state the frame claim about `train` — the caller's tables are never
mutated — the pandas objects are given explicit identity: a heap of frames
addressed by position, on which `df.copy()` allocates, `drop` allocates a
derived frame, and the `preds` writes update the copy in place. -/

/-- A pandas object: a training frame (whose `preds` column may be absent),
a test frame, or a test frame with `PassengerId` dropped. -/
inductive Frame (Feat : Type) where
  | trainF (rows : List (TrainRow Feat)) (preds : Option (List (Option ℚ)))
  | testF (rows : List (TestRow Feat))
  | testNoId (features : List Feat)

/-- Read a heap frame as the working table `_train_fold` sees. -/
def decodeWork (fr : Frame Feat) : WorkDF Feat :=
  match fr with
  | Frame.trainF rows (some ps) => ⟨rows, ps⟩
  | Frame.trainF rows none => ⟨rows, []⟩
  | _ => ⟨[], []⟩

/-- The fold loop at the object level: each fold's `preds` write is an
in-place update of the frame at `hcopy`. -/
def heapFoldLoop (m : ModelHooks Feat P FitP) (testX : List Feat) (params : P) :
    List (Frame Feat) → Nat → List Int → List (Frame Feat) × List (List ℚ × ℚ)
  | heap, _, [] => (heap, [])
  | heap, hcopy, f :: fs =>
    let wdf := decodeWork (heap.getD hcopy (Frame.trainF [] none))
    let step := trainFold m wdf testX f params
    let heap2 := heap.set hcopy (Frame.trainF step.1.rows (some step.1.preds))
    let rest := heapFoldLoop m testX params heap2 hcopy fs
    (rest.1, step.2 :: rest.2)

/-- `BaseModel.train` at the object level.  `hdf` and `htest` are the
caller's handles to the training and test frames.  `df = df.copy()`
allocates a fresh frame; `test_df.drop("PassengerId", axis=1)` allocates a
derived frame; `df["preds"] = pd.NA` and the fold writes mutate only the
copy.  Returns the final heap together with the triple `train` returns. -/
def train_objsem (m : ModelHooks Feat P FitP) (heap : List (Frame Feat))
    (hdf htest : Nat) (params : P) :
    List (Frame Feat) × (List (Option ℚ) × List ℚ × ℚ) :=
  let callerRows :=
    match heap.getD hdf (Frame.trainF [] none) with
    | Frame.trainF rows _ => rows
    | _ => []
  let testRows :=
    match heap.getD htest (Frame.trainF [] none) with
    | Frame.testF rows => rows
    | _ => []
  let hcopy := heap.length
  let heap1 := heap ++ [Frame.trainF callerRows none]
  let testX := testRows.map TestRow.features
  let heap2 := heap1 ++ [Frame.testNoId testX]
  let heap3 := heap2.set hcopy (Frame.trainF callerRows (some (callerRows.map (fun _ => none))))
  let res := heapFoldLoop m testX params heap3 hcopy [0, 1, 2, 3, 4]
  let finalPreds :=
    match res.1.getD hcopy (Frame.trainF [] none) with
    | Frame.trainF _ (some ps) => ps
    | _ => []
  let totalAcc := (res.2.map Prod.snd).foldl (fun a b => a + b) 0
  let acc := totalAcc / 5
  let testPreds := np_mean_axis0 (res.2.map Prod.fst)
  (res.1, (finalPreds, testPreds, acc))

/-- The trial run `hyperparameter_search` performs: the objective closed over
the preprocessed tables, sampled by the seed-42 sampler. -/
def searchRun (m : PyModel D) (entropy : Nat → Nat) (n : Nat) :
    List SearchEvent × Except PyErr (List (Nat × ℚ)) :=
  runTrials
    (fun p => m.objective p (m.preprocess_datasets m.train_df m.test_df).1
      (m.preprocess_datasets m.train_df m.test_df).2)
    (tpeSampler (some 42) entropy) n 0

/-! ### Concrete fixtures for the witnesses -/

/-- A concrete subclass model whose objective always succeeds, used to
witness the normal-completion branch of the verbosity claim. -/
def okModel : PyModel Unit :=
  ⟨(), (), basePreprocess Unit, fun p _ _ => Except.ok ((p : ℚ))⟩

/-- Concrete hooks for witnesses: a classifier that always predicts `true`
with positive-class probability `1/2`, and no extra fit parameters. -/
def unitHooks : ModelHooks Unit Unit Unit :=
  ⟨fun _ => ⟨fun _ _ _ => ⟨fun _ => true, fun _ => (1 : ℚ) / 2⟩⟩,
    fun _ _ _ _ _ => ()⟩

/-- A concrete five-row training table whose fold column cycles `0..4`. -/
def dfW : List (TrainRow Unit) :=
  [⟨(), true, 0⟩, ⟨(), false, 1⟩, ⟨(), true, 2⟩, ⟨(), true, 3⟩, ⟨(), false, 4⟩]

/-- A concrete working table with an uninitialised `preds` column. -/
def wdfW : WorkDF Unit :=
  ⟨dfW, [none, none, none, none, none]⟩

/-- A concrete training table with one row whose fold index `7` lies outside
`{0,1,2,3,4}`. -/
def dfBad : List (TrainRow Unit) :=
  [⟨(), true, 0⟩, ⟨(), false, 7⟩]

/-- A concrete two-frame heap for the frame-effect witness. -/
def heapW : List (Frame Unit) :=
  [Frame.trainF [⟨(), true, 0⟩] none, Frame.testF [⟨0, ()⟩]]

/-! ### Basic lemmas about the fold step and the fold loop -/

theorem trainFold_fst_rows (m : ModelHooks Feat P FitP) (df : WorkDF Feat)
    (testX : List Feat) (fold : Int) (params : P) :
    (trainFold m df testX fold params).1.rows = df.rows := rfl

theorem trainFold_preds_length (m : ModelHooks Feat P FitP) (df : WorkDF Feat)
    (testX : List Feat) (fold : Int) (params : P)
    (hlen : df.preds.length = df.rows.length) :
    (trainFold m df testX fold params).1.preds.length = df.rows.length := by
  simp [trainFold, hlen]

theorem trainFold_preds_getD (m : ModelHooks Feat P FitP) (df : WorkDF Feat)
    (testX : List Feat) (fold : Int) (params : P)
    (hlen : df.preds.length = df.rows.length) (i : Nat) (hi : i < df.rows.length) :
    (trainFold m df testX fold params).1.preds.getD i none =
      if (df.rows[i]).kfold = fold
      then some ((fittedClf m df.rows fold params).predict_proba (df.rows[i]).features)
      else df.preds.getD i none := by
  have hz : i < (trainFold m df testX fold params).1.preds.length := by
    rw [trainFold_preds_length m df testX fold params hlen]; exact hi
  have hp : i < df.preds.length := by rw [hlen]; exact hi
  rw [List.getD_eq_getElem?_getD, List.getElem?_eq_getElem hz]
  simp only [trainFold]
  rw [List.getElem_zipWith]
  by_cases h : (df.rows[i]).kfold = fold
  · simp [h]
  · simp only [h, if_false, Option.getD_some]
    rw [List.getD_eq_getElem?_getD, List.getElem?_eq_getElem hp]
    rfl

theorem trainFold_testpred (m : ModelHooks Feat P FitP) (df : WorkDF Feat)
    (testX : List Feat) (fold : Int) (params : P) :
    (trainFold m df testX fold params).2.1 =
      testX.map (fittedClf m df.rows fold params).predict_proba := rfl

theorem trainLoop_rows_eq (m : ModelHooks Feat P FitP) (testX : List Feat)
    (params : P) (fs : List Int) :
    ∀ wdf : WorkDF Feat, (trainLoop m testX params wdf fs).1.rows = wdf.rows := by
  induction fs with
  | nil => intro wdf; rfl
  | cons f fs ih =>
    intro wdf
    simp only [trainLoop]
    rw [ih]
    rfl

theorem trainLoop_preds_len (m : ModelHooks Feat P FitP) (testX : List Feat)
    (params : P) (fs : List Int) :
    ∀ wdf : WorkDF Feat, wdf.preds.length = wdf.rows.length →
      (trainLoop m testX params wdf fs).1.preds.length = wdf.rows.length := by
  induction fs with
  | nil => intro wdf hlen; exact hlen
  | cons f fs ih =>
    intro wdf hlen
    simp only [trainLoop]
    have h2 : (trainFold m wdf testX f params).1.preds.length =
        (trainFold m wdf testX f params).1.rows.length := by
      rw [trainFold_fst_rows]
      exact trainFold_preds_length m wdf testX f params hlen
    have := ih (trainFold m wdf testX f params).1 h2
    rw [trainFold_fst_rows] at this
    exact this

theorem trainLoop_steps_length (m : ModelHooks Feat P FitP) (testX : List Feat)
    (params : P) (fs : List Int) :
    ∀ wdf : WorkDF Feat, (trainLoop m testX params wdf fs).2.length = fs.length := by
  induction fs with
  | nil => intro wdf; rfl
  | cons f fs ih =>
    intro wdf
    simp only [trainLoop, List.length_cons, ih]

theorem trainLoop_preds_getD (m : ModelHooks Feat P FitP) (testX : List Feat)
    (params : P) (fs : List Int) :
    ∀ (wdf : WorkDF Feat), wdf.preds.length = wdf.rows.length →
      ∀ (i : Nat) (hi : i < wdf.rows.length),
      (trainLoop m testX params wdf fs).1.preds.getD i none =
        if (wdf.rows[i]).kfold ∈ fs
        then some ((fittedClf m wdf.rows (wdf.rows[i]).kfold params).predict_proba
            (wdf.rows[i]).features)
        else wdf.preds.getD i none := by
  induction fs with
  | nil =>
    intro wdf hlen i hi
    simp [trainLoop]
  | cons f fs ih =>
    intro wdf hlen i hi
    simp only [trainLoop]
    have hrows : (trainFold m wdf testX f params).1.rows = wdf.rows := rfl
    have h2 : (trainFold m wdf testX f params).1.preds.length =
        (trainFold m wdf testX f params).1.rows.length := by
      rw [hrows]
      exact trainFold_preds_length m wdf testX f params hlen
    have hi2 : i < (trainFold m wdf testX f params).1.rows.length := by
      rw [hrows]; exact hi
    have key := ih (trainFold m wdf testX f params).1 h2 i hi2
    simp only [trainFold_fst_rows m wdf testX f params] at key
    rw [key]
    have hstep := trainFold_preds_getD m wdf testX f params hlen i hi
    by_cases hmem : (wdf.rows[i]).kfold ∈ fs
    · have : (wdf.rows[i]).kfold ∈ f :: fs := List.mem_cons_of_mem f hmem
      simp only [hmem, if_true, this, if_true]
    · by_cases heq : (wdf.rows[i]).kfold = f
      · have hmem2 : (wdf.rows[i]).kfold ∈ f :: fs := by rw [heq]; exact List.mem_cons_self f fs
        simp only [hmem, if_false, hmem2, if_true]
        rw [hstep, if_pos heq, heq]
      · have hmem2 : (wdf.rows[i]).kfold ∉ f :: fs := by
          intro hc
          rcases List.mem_cons.mp hc with h | h
          · exact heq h
          · exact hmem h
        simp only [hmem, if_false, hmem2]
        rw [hstep, if_neg heq]

theorem trainLoop_tp_lengths (m : ModelHooks Feat P FitP) (testX : List Feat)
    (params : P) (fs : List Int) :
    ∀ wdf : WorkDF Feat, ∀ v ∈ (trainLoop m testX params wdf fs).2.map Prod.fst,
      v.length = testX.length := by
  induction fs with
  | nil => intro wdf v hv; simp [trainLoop] at hv
  | cons f fs ih =>
    intro wdf v hv
    simp only [trainLoop, List.map_cons, List.mem_cons] at hv
    rcases hv with h | h
    · rw [h, trainFold_testpred]
      exact List.length_map testX _
    · exact ih (trainFold m wdf testX f params).1 v h

theorem np_mean_axis0_spec (stack : List (List ℚ)) (n : Nat) (hne : stack ≠ [])
    (hlen : ∀ v ∈ stack, v.length = n) :
    np_mean_axis0 stack =
      (List.range n).map
        (fun j => ((stack.map (fun w => w.getD j 0)).sum) / ((stack.length : ℚ))) := by
  cases stack with
  | nil => exact absurd rfl hne
  | cons v rest =>
    have hv : v.length = n := hlen v (List.mem_cons_self v rest)
    simp only [np_mean_axis0, hv]

theorem foldl_add_eq_sum (l : List ℚ) : ∀ a : ℚ, l.foldl (fun x y => x + y) a = a + l.sum := by
  induction l with
  | nil => intro a; simp
  | cons x xs ih =>
    intro a
    simp only [List.foldl_cons, List.sum_cons, ih]
    ring

theorem getD_map_none (l : List (TrainRow Feat)) (i : Nat) :
    (l.map (fun _ => (none : Option ℚ))).getD i none = none := by
  rw [List.getD_eq_getElem?_getD, List.getElem?_map]
  cases l[i]? <;> rfl

/-! ### The claims about `train` and `_train_fold` -/

/-- C1: for every training table whose fold-index column assigns each row an
integer in `[0,5)`, every row of the out-of-fold prediction vector returned
by `train` holds the value written by exactly the fold equal to the row's
fold index — no row is left unwritten (`none`), and the number of folds whose
held-out partition contains the row is exactly one. -/
theorem train_oof_written_exactly_once (m : ModelHooks Feat P FitP)
    (df : List (TrainRow Feat)) (test_df : List (TestRow Feat)) (params : P)
    (hk : ∀ r ∈ df, 0 ≤ r.kfold ∧ r.kfold < 5) (i : Nat) (hi : i < df.length) :
    (train m df test_df params).1.getD i none =
      some ((fittedClf m df (df[i]).kfold params).predict_proba (df[i]).features)
    ∧ ((List.range 5).filter (fun f => (df[i]).kfold = (f : Int))).length = 1 := by
  have hrow := hk (df[i]) (List.getElem_mem hi)
  have htr : (train m df test_df params).1 =
      (trainLoop m (test_df.map TestRow.features) params
        ⟨df, df.map (fun _ => none)⟩ [0, 1, 2, 3, 4]).1.preds := rfl
  have h := trainLoop_preds_getD m (test_df.map TestRow.features) params
    [0, 1, 2, 3, 4] ⟨df, df.map (fun _ => none)⟩ (by simp) i hi
  dsimp only at h
  have hmem : (df[i]).kfold ∈ ([0, 1, 2, 3, 4] : List Int) := by
    simp only [List.mem_cons, List.not_mem_nil, or_false]
    omega
  constructor
  · rw [htr, h, if_pos hmem]
  · have hcase : (df[i]).kfold = 0 ∨ (df[i]).kfold = 1 ∨ (df[i]).kfold = 2 ∨
        (df[i]).kfold = 3 ∨ (df[i]).kfold = 4 := by omega
    rcases hcase with hc | hc | hc | hc | hc <;> simp only [hc] <;> decide

/-- C2: the scalar accuracy returned by `train` is the sum of the five
per-fold accuracies produced by the five fold steps, divided by 5 (and there
are exactly five such steps). -/
theorem train_mean_accuracy (m : ModelHooks Feat P FitP)
    (df : List (TrainRow Feat)) (test_df : List (TestRow Feat)) (params : P) :
    (train m df test_df params).2.2 =
      (((trainLoop m (test_df.map TestRow.features) params
          ⟨df, df.map (fun _ => none)⟩ [0, 1, 2, 3, 4]).2.map Prod.snd).sum) / 5
    ∧ (trainLoop m (test_df.map TestRow.features) params
        ⟨df, df.map (fun _ => none)⟩ [0, 1, 2, 3, 4]).2.length = 5 := by
  constructor
  · have h : (train m df test_df params).2.2 =
        ((trainLoop m (test_df.map TestRow.features) params
          ⟨df, df.map (fun _ => none)⟩ [0, 1, 2, 3, 4]).2.map Prod.snd).foldl
            (fun a b => a + b) 0 / 5 := rfl
    rw [h, foldl_add_eq_sum, zero_add]
  · exact trainLoop_steps_length m (test_df.map TestRow.features) params
      [0, 1, 2, 3, 4] ⟨df, df.map (fun _ => none)⟩

/-- C3: the test-prediction vector returned by `train` is the element-wise
arithmetic mean of the five per-fold test-prediction vectors produced by the
fold steps: its `j`-th entry is the sum of the five `j`-th entries divided
by 5, for every `j` below the test-table length. -/
theorem train_testpred_elementwise_mean (m : ModelHooks Feat P FitP)
    (df : List (TrainRow Feat)) (test_df : List (TestRow Feat)) (params : P) :
    (train m df test_df params).2.1 =
      (List.range test_df.length).map
        (fun j => ((((trainLoop m (test_df.map TestRow.features) params
            ⟨df, df.map (fun _ => none)⟩ [0, 1, 2, 3, 4]).2.map Prod.fst).map
              (fun v => v.getD j 0)).sum) / 5) := by
  have h : (train m df test_df params).2.1 =
      np_mean_axis0 ((trainLoop m (test_df.map TestRow.features) params
        ⟨df, df.map (fun _ => none)⟩ [0, 1, 2, 3, 4]).2.map Prod.fst) := rfl
  have hsl : ((trainLoop m (test_df.map TestRow.features) params
      ⟨df, df.map (fun _ => none)⟩ [0, 1, 2, 3, 4]).2.map Prod.fst).length = 5 := by
    rw [List.length_map]
    exact trainLoop_steps_length m (test_df.map TestRow.features) params
      [0, 1, 2, 3, 4] ⟨df, df.map (fun _ => none)⟩
  have hne : ((trainLoop m (test_df.map TestRow.features) params
      ⟨df, df.map (fun _ => none)⟩ [0, 1, 2, 3, 4]).2.map Prod.fst) ≠ [] := by
    intro hc
    rw [hc] at hsl
    exact absurd hsl (by decide)
  have hlens := trainLoop_tp_lengths m (test_df.map TestRow.features) params
    [0, 1, 2, 3, 4] ⟨df, df.map (fun _ => none)⟩
  rw [h, np_mean_axis0_spec _ (test_df.map TestRow.features).length hne hlens, hsl]
  simp [List.length_map]

/-- C4: the fold training step fits a freshly constructed classifier on the
rows whose fold index differs from the selector, returns as accuracy the
classification accuracy of its predictions on exactly the rows whose fold
index equals the selector, returns the positive-class probability for every
test row, and writes exactly the held-out rows' positive-class probability
into the running-prediction column, leaving other entries unchanged. -/
theorem train_fold_spec (m : ModelHooks Feat P FitP) (df : WorkDF Feat)
    (testX : List Feat) (fold : Int) (params : P)
    (hlen : df.preds.length = df.rows.length) :
    (trainFold m df testX fold params).2.2 =
      ((((heldoutRows df.rows fold).countP
          (fun r => r.transported ==
            (fittedClf m df.rows fold params).predict r.features) : ℚ))
        / (((heldoutRows df.rows fold).length : ℚ)))
    ∧ (trainFold m df testX fold params).2.1 =
        testX.map (fittedClf m df.rows fold params).predict_proba
    ∧ (trainFold m df testX fold params).1.rows = df.rows
    ∧ ∀ (i : Nat) (hi : i < df.rows.length),
        (trainFold m df testX fold params).1.preds.getD i none =
          (if (df.rows[i]).kfold = fold
           then some ((fittedClf m df.rows fold params).predict_proba
              (df.rows[i]).features)
           else df.preds.getD i none) := by
  refine ⟨?_, rfl, rfl, fun i hi => trainFold_preds_getD m df testX fold params hlen i hi⟩
  have h : (trainFold m df testX fold params).2.2 =
      accuracy_score ((heldoutRows df.rows fold).map TrainRow.transported)
        ((heldoutRows df.rows fold).map
          (fun r => (fittedClf m df.rows fold params).predict r.features)) := rfl
  rw [h]
  unfold accuracy_score
  rw [List.zip_map', List.countP_map, List.length_map]
  rfl

/-- C10: a training row whose fold index lies outside `{0,1,2,3,4}` is
included in the in-fold training partition of all five folds, and its entry
in the out-of-fold prediction vector returned by `train` remains the missing
placeholder `none`. -/
theorem train_out_of_range_kfold (m : ModelHooks Feat P FitP)
    (df : List (TrainRow Feat)) (test_df : List (TestRow Feat)) (params : P)
    (i : Nat) (hi : i < df.length)
    (hk : ¬(0 ≤ (df[i]).kfold ∧ (df[i]).kfold < 5)) :
    (∀ f : Int, 0 ≤ f → f < 5 → df[i] ∈ infoldRows df f)
    ∧ (train m df test_df params).1.getD i none = none := by
  constructor
  · intro f hf0 hf5
    unfold infoldRows
    rw [List.mem_filter]
    refine ⟨List.getElem_mem hi, ?_⟩
    rw [decide_eq_true_eq]
    omega
  · have htr : (train m df test_df params).1 =
        (trainLoop m (test_df.map TestRow.features) params
          ⟨df, df.map (fun _ => none)⟩ [0, 1, 2, 3, 4]).1.preds := rfl
    have h := trainLoop_preds_getD m (test_df.map TestRow.features) params
      [0, 1, 2, 3, 4] ⟨df, df.map (fun _ => none)⟩ (by simp) i hi
    dsimp only at h
    have hmem : (df[i]).kfold ∉ ([0, 1, 2, 3, 4] : List Int) := by
      intro hc
      simp only [List.mem_cons, List.not_mem_nil, or_false] at hc
      omega
    rw [htr, h, if_neg hmem]
    exact getD_map_none df i

/-! ### Registry lemmas and claim C7 -/

theorem dictGet_dictSet (r : List (String × Nat)) (k k' : String) (v : Nat) :
    dictGet (dictSet r k v) k' = if k' = k then some v else dictGet r k' := by
  induction r with
  | nil =>
    by_cases h : k' = k
    · subst h; simp [dictSet, dictGet]
    · have h2 : ¬(k = k') := fun hc => h hc.symm
      simp [dictSet, dictGet, h, h2]
  | cons e rest ih =>
    by_cases he : e.1 = k
    · by_cases h : k' = k
      · subst h; simp [dictSet, dictGet, he]
      · have h2 : ¬(k = k') := fun hc => h hc.symm
        have h3 : ¬(e.1 = k') := by rw [he]; exact h2
        simp [dictSet, dictGet, he, h, h2, h3]
    · by_cases h : e.1 = k'
      · have h2 : ¬(k' = k) := fun hc => he (h.trans hc)
        simp [dictSet, dictGet, he, h, h2]
      · simp [dictSet, dictGet, he, h, ih]

/-- C7: whenever a subclass declares a non-null `name`, `__init_subclass__`
registers it in `REGISTRY` mapping that name to the class at class-creation
time; two subclasses sharing a name leave the second class in the registry
(last-write-wins, silently); and no registration ever removes an existing
entry. -/
theorem registry_last_write_wins :
    (∀ (r : List (String × Nat)) (c : ClassDecl) (n : String),
        c.name = some n → dictGet (init_subclass r c) n = some c.clsId)
    ∧ (∀ (r : List (String × Nat)) (c1 c2 : ClassDecl) (n : String),
        c1.name = some n → c2.name = some n →
          dictGet (init_subclass (init_subclass r c1) c2) n = some c2.clsId)
    ∧ (∀ (r : List (String × Nat)) (c : ClassDecl) (k : String),
        (dictGet r k).isSome → (dictGet (init_subclass r c) k).isSome) := by
  have hself : ∀ (r : List (String × Nat)) (k : String) (v : Nat),
      dictGet (dictSet r k v) k = some v := by
    intro r k v
    rw [dictGet_dictSet]
    simp
  refine ⟨?_, ?_, ?_⟩
  · intro r c n hn
    simp only [init_subclass, hn]
    exact hself r n c.clsId
  · intro r c1 c2 n h1 h2
    simp only [init_subclass, h1, h2]
    exact hself _ n c2.clsId
  · intro r c k h
    cases hc : c.name with
    | none => simpa only [init_subclass, hc] using h
    | some n =>
      simp only [init_subclass, hc, dictGet_dictSet]
      by_cases hk : k = n
      · simp [hk]
      · simpa [hk] using h

/-- Witness for C7 at a concrete registry: registering two classes named
"xgboost" leaves the second one registered. -/
theorem registry_last_write_wins_witness :
    (⟨some ("xgboost"), 1⟩ : ClassDecl).name = some ("xgboost")
    ∧ (⟨some ("xgboost"), 2⟩ : ClassDecl).name = some ("xgboost")
    ∧ dictGet (init_subclass (init_subclass [] ⟨some ("xgboost"), 1⟩)
        ⟨some ("xgboost"), 2⟩) ("xgboost") = some 2 :=
  ⟨rfl, rfl,
    registry_last_write_wins.2.1 [] ⟨some ("xgboost"), 1⟩ ⟨some ("xgboost"), 2⟩
      ("xgboost") rfl rfl⟩

/-! ### Hyperparameter-search lemmas and claims C5, C6, C9 -/

theorem runTrials_no_setVerbosity (o : Nat → Except PyErr ℚ) (sp : Nat → Nat) :
    ∀ (k i : Nat) (w : Int), SearchEvent.setVerbosity w ∉ (runTrials o sp k i).1 := by
  intro k
  induction k with
  | zero => intro i w; simp [runTrials]
  | succ k ih =>
    intro i w
    simp only [runTrials]
    cases ho : o (sp i) with
    | error e => simp
    | ok v =>
      simp only [List.mem_cons, not_or]
      exact ⟨fun hc => SearchEvent.noConfusion hc, ih (i + 1) w⟩

/-- C5: on the base class (whose `objective` is not overridden),
`hyperparameter_search` surfaces the `NotImplementedError` raised by
`objective`, and its event trace contains no completed trial. -/
theorem hyperparameter_search_base_raises (D : Type) (td ed : D)
    (entropy : Nat → Nat) (n : Nat) (s : LogState) (hn : 1 ≤ n) :
    (hyperparameter_search ⟨td, ed, basePreprocess D, baseObjective D⟩ entropy n s).2.2 =
      Except.error (PyErr.notImplemented ("Base classes need to implement objective()."))
    ∧ ∀ (i : Nat) (v : ℚ), SearchEvent.trialComplete i v ∉
        (hyperparameter_search ⟨td, ed, basePreprocess D, baseObjective D⟩ entropy n s).1 := by
  obtain ⟨k, rfl⟩ : ∃ k, n = k + 1 := ⟨n - 1, by omega⟩
  have hev : (hyperparameter_search ⟨td, ed, basePreprocess D, baseObjective D⟩
      entropy (k + 1) s).1 = [SearchEvent.setVerbosity optunaWARNING] := rfl
  refine ⟨rfl, ?_⟩
  intro i v hmem
  rw [hev] at hmem
  simp only [List.mem_singleton] at hmem
  exact SearchEvent.noConfusion hmem

/-- Witness for C5 with one requested trial: the search fails with the
`NotImplementedError` message and completes no trial. -/
theorem hyperparameter_search_base_raises_witness :
    1 ≤ 1
    ∧ ((hyperparameter_search (⟨(), (), basePreprocess Unit, baseObjective Unit⟩ :
          PyModel Unit) id 1 ⟨optunaINFO⟩).2.2 =
        Except.error (PyErr.notImplemented ("Base classes need to implement objective()."))
      ∧ ∀ (i : Nat) (v : ℚ), SearchEvent.trialComplete i v ∉
          (hyperparameter_search (⟨(), (), basePreprocess Unit, baseObjective Unit⟩ :
            PyModel Unit) id 1 ⟨optunaINFO⟩).1) :=
  ⟨Nat.le_refl 1,
    hyperparameter_search_base_raises Unit () () id 1 ⟨optunaINFO⟩ (Nat.le_refl 1)⟩

/-- C6: `hyperparameter_search` first sets the optimizer verbosity to
`WARNING`, no trial changes it, and on normal completion of the trial run the
prior verbosity is restored (whatever the number of trials); when the trial
run raises, the final verbosity is still `WARNING` — restoration happens only
on normal completion. -/
theorem hyperparameter_search_verbosity (D : Type) (m : PyModel D)
    (entropy : Nat → Nat) (n : Nat) (s : LogState) :
    ((hyperparameter_search m entropy n s).1.head? =
      some (SearchEvent.setVerbosity optunaWARNING))
    ∧ (∀ w : Int, SearchEvent.setVerbosity w ∉ (searchRun m entropy n).1)
    ∧ ((∃ l, (searchRun m entropy n).2 = Except.ok l) →
        (hyperparameter_search m entropy n s).2.1.verbosity = s.verbosity
        ∧ (hyperparameter_search m entropy n s).1 =
            SearchEvent.setVerbosity optunaWARNING :: (searchRun m entropy n).1
              ++ [SearchEvent.setVerbosity s.verbosity])
    ∧ ((∃ e, (searchRun m entropy n).2 = Except.error e) →
        (hyperparameter_search m entropy n s).2.1.verbosity = optunaWARNING) := by
  have hunfold : hyperparameter_search m entropy n s =
      (match (searchRun m entropy n).2 with
        | Except.error e =>
          (SearchEvent.setVerbosity optunaWARNING :: (searchRun m entropy n).1,
            ⟨optunaWARNING⟩, Except.error e)
        | Except.ok trials =>
          (SearchEvent.setVerbosity optunaWARNING :: (searchRun m entropy n).1
              ++ [SearchEvent.setVerbosity s.verbosity],
            ⟨s.verbosity⟩, bestParams trials)) := rfl
  refine ⟨?_, ?_, ?_, ?_⟩
  · rw [hunfold]
    cases hres : (searchRun m entropy n).2 with
    | error e => rfl
    | ok l => rfl
  · intro w
    exact runTrials_no_setVerbosity
      (fun p => m.objective p (m.preprocess_datasets m.train_df m.test_df).1
        (m.preprocess_datasets m.train_df m.test_df).2)
      (tpeSampler (some 42) entropy) n 0 w
  · rintro ⟨l, hl⟩
    rw [hunfold, hl]
    exact ⟨rfl, rfl⟩
  · rintro ⟨e, he⟩
    rw [hunfold, he]

/-- Witness for C6: a two-trial search with an always-succeeding objective
restores the prior verbosity `INFO` and logs the two verbosity writes around
the trials. -/
theorem hyperparameter_search_verbosity_witness :
    (∃ l, (searchRun okModel id 2).2 = Except.ok l)
    ∧ (hyperparameter_search okModel id 2 ⟨optunaINFO⟩).2.1.verbosity = optunaINFO
    ∧ (hyperparameter_search okModel id 2 ⟨optunaINFO⟩).1 =
        SearchEvent.setVerbosity optunaWARNING :: (searchRun okModel id 2).1
          ++ [SearchEvent.setVerbosity optunaINFO] := by
  have h := hyperparameter_search_verbosity Unit okModel id 2 ⟨optunaINFO⟩
  have hok : (searchRun okModel id 2).2 =
      Except.ok [(tpeStream 42 0, ((tpeStream 42 0 : Nat) : ℚ)),
        (tpeStream 42 1, ((tpeStream 42 1 : Nat) : ℚ))] := rfl
  have hres := h.2.2.1 ⟨_, hok⟩
  exact ⟨⟨_, hok⟩, hres.1, hres.2⟩

/-- C9: with the sampler seed fixed to 42 inside `hyperparameter_search`, the
entropy source is never consulted, so two runs over the same model, trial
count and datasets produce identical traces, states and best parameters. -/
theorem hyperparameter_search_seed_deterministic (D : Type) (m : PyModel D)
    (e1 e2 : Nat → Nat) (n : Nat) (s : LogState) :
    hyperparameter_search m e1 n s = hyperparameter_search m e2 n s := rfl

/-! ### Object-level frame lemmas and claim C8 -/

theorem heapFoldLoop_getElem_ne (m : ModelHooks Feat P FitP) (testX : List Feat)
    (params : P) (fs : List Int) :
    ∀ (heap : List (Frame Feat)) (hcopy j : Nat), j ≠ hcopy →
      (heapFoldLoop m testX params heap hcopy fs).1[j]? = heap[j]? := by
  induction fs with
  | nil => intro heap hcopy j hj; rfl
  | cons f fs ih =>
    intro heap hcopy j hj
    simp only [heapFoldLoop]
    rw [ih _ hcopy j hj]
    exact List.getElem?_set_ne (Ne.symm hj)

/-- C8: `train` at the object level leaves the caller's training frame and
test frame untouched: every mutation hits the fresh copy or the derived
`PassengerId`-free frame. -/
theorem train_objsem_caller_frames_unchanged (m : ModelHooks Feat P FitP)
    (heap : List (Frame Feat)) (hdf htest : Nat) (params : P)
    (h1 : hdf < heap.length) (h2 : htest < heap.length) :
    (train_objsem m heap hdf htest params).1[hdf]? = heap[hdf]?
    ∧ (train_objsem m heap hdf htest params).1[htest]? = heap[htest]? := by
  have key : ∀ j, j < heap.length →
      (train_objsem m heap hdf htest params).1[j]? = heap[j]? := by
    intro j hj
    simp only [train_objsem]
    rw [heapFoldLoop_getElem_ne m _ params [0, 1, 2, 3, 4] _ heap.length j (by omega)]
    rw [List.getElem?_set_ne (by omega : heap.length ≠ j)]
    rw [List.getElem?_append_left (by simp only [List.length_append]; omega)]
    rw [List.getElem?_append_left hj]
  exact ⟨key hdf h1, key htest h2⟩

/-- Witness for C8: on a two-frame heap, both caller frames are unchanged
after training. -/
theorem train_objsem_caller_frames_unchanged_witness :
    0 < heapW.length ∧ 1 < heapW.length
    ∧ ((train_objsem unitHooks heapW 0 1 ()).1[0]? = heapW[0]?
      ∧ (train_objsem unitHooks heapW 0 1 ()).1[1]? = heapW[1]?) :=
  ⟨by decide, by decide,
    train_objsem_caller_frames_unchanged unitHooks heapW 0 1 () (by decide) (by decide)⟩

/-- Witness for C1: on a five-row table whose folds cycle `0..4`, row 2 of
the out-of-fold vector holds the probability written by fold 2, and exactly
one fold selects the row. -/
theorem train_oof_written_exactly_once_witness :
    (∀ r ∈ dfW, 0 ≤ r.kfold ∧ r.kfold < 5) ∧ 2 < dfW.length
    ∧ ((train unitHooks dfW [] ()).1.getD 2 none =
        some ((fittedClf unitHooks dfW ((dfW.get ⟨2, by decide⟩)).kfold ()).predict_proba
          ((dfW.get ⟨2, by decide⟩)).features)
      ∧ ((List.range 5).filter
          (fun f => ((dfW.get ⟨2, by decide⟩)).kfold = (f : Int))).length = 1) :=
  ⟨by decide, by decide,
    train_oof_written_exactly_once unitHooks dfW [] () (by decide) 2 (by decide)⟩

/-- Witness for C4: the fold-0 training step on the concrete working table
satisfies the fold-step contract. -/
theorem train_fold_spec_witness :
    wdfW.preds.length = wdfW.rows.length
    ∧ ((trainFold unitHooks wdfW [] 0 ()).2.2 =
        ((((heldoutRows wdfW.rows 0).countP
            (fun r => r.transported ==
              (fittedClf unitHooks wdfW.rows 0 ()).predict r.features) : ℚ))
          / (((heldoutRows wdfW.rows 0).length : ℚ)))
      ∧ (trainFold unitHooks wdfW [] 0 ()).2.1 =
          List.map (fittedClf unitHooks wdfW.rows 0 ()).predict_proba []
      ∧ (trainFold unitHooks wdfW [] 0 ()).1.rows = wdfW.rows
      ∧ ∀ (i : Nat) (hi : i < wdfW.rows.length),
          (trainFold unitHooks wdfW [] 0 ()).1.preds.getD i none =
            (if ((wdfW.rows.get ⟨i, hi⟩)).kfold = 0
             then some ((fittedClf unitHooks wdfW.rows 0 ()).predict_proba
                ((wdfW.rows.get ⟨i, hi⟩)).features)
             else wdfW.preds.getD i none)) :=
  ⟨by decide, train_fold_spec unitHooks wdfW [] 0 () (by decide)⟩

/-- Witness for C10: the row with fold index 7 belongs to the in-fold
partition of every fold and its out-of-fold entry stays `none`. -/
theorem train_out_of_range_kfold_witness :
    1 < dfBad.length
    ∧ ¬(0 ≤ ((dfBad.get ⟨1, by decide⟩)).kfold ∧ ((dfBad.get ⟨1, by decide⟩)).kfold < 5)
    ∧ ((∀ f : Int, 0 ≤ f → f < 5 → (dfBad.get ⟨1, by decide⟩) ∈ infoldRows dfBad f)
      ∧ (train unitHooks dfBad [] ()).1.getD 1 none = none) :=
  ⟨by decide, by decide,
    train_out_of_range_kfold unitHooks dfBad [] () 1 (by decide) (by decide)⟩

end SpaceTitanic
